import Mathlib

/-!
Verification of the pi-pr-status extension (TypeScript) against its
specification.  The pure logic of `src/lib/github.ts` and the selector
logic of the extension module are shallowly embedded below; backend
calls (`git`, `gh`) are modelled as oracle values supplied through an
environment record, and machine strings are Lean `String`s.
-/

set_option maxRecDepth 4000

/-- CheckStatus mirrors the `CheckStatus` interface of `src/lib/github.ts`:
a tally of CI check results. -/
structure CheckStatus where
  total : Nat
  pass : Nat
  fail : Nat
  pending : Nat
deriving DecidableEq

/-- PrInfo mirrors the `PrInfo` interface: a snapshot of one pull request. -/
structure PrInfo where
  number : Nat
  title : String
  url : String
  state : String
  checks : CheckStatus
  unresolvedThreads : Nat
deriving DecidableEq

/-- RepoInfo mirrors the `RepoInfo` interface: owner/name coordinates. -/
structure RepoInfo where
  owner : String
  name : String
deriving DecidableEq

/-- CheckRecord models one element of the raw `statusCheckRollup` array.
The TypeScript reads `c.conclusion || ""`, `c.status || ""`, `c.name || ""`,
so an absent / null field is indistinguishable from the empty string and is
embedded as `""`. -/
structure CheckRecord where
  name : String
  conclusion : String
  status : String
deriving DecidableEq

/-- upper models `String.prototype.toUpperCase` (ASCII case mapping, which
is all the vocabulary comparisons below can distinguish). -/
def upper (s : String) : String :=
  String.mk (s.data.map Char.toUpper)

/-- parseChecksStep is the body of the `for` loop of `parseChecks` in
`src/lib/github.ts` (lines 59-91): one raw record folded into the tally. -/
def parseChecksStep (checks : CheckStatus) (check : CheckRecord) : CheckStatus :=
  let conclusion := upper check.conclusion
  let status := upper check.status
  let name := check.name
  -- Skip ghost checks with no meaningful data
  if name = "" ∧ conclusion = "" ∧ status = "" then checks
  else
    let checks := { checks with total := checks.total + 1 }
    if conclusion = "SUCCESS" ∨ conclusion = "NEUTRAL" ∨ conclusion = "SKIPPED" then
      { checks with pass := checks.pass + 1 }
    else if conclusion = "FAILURE" ∨ conclusion = "TIMED_OUT" ∨
        conclusion = "CANCELLED" ∨ conclusion = "ACTION_REQUIRED" then
      { checks with fail := checks.fail + 1 }
    else if status = "IN_PROGRESS" ∨ status = "QUEUED" ∨
        status = "PENDING" ∨ status = "WAITING" then
      { checks with pending := checks.pending + 1 }
    else if status = "COMPLETED" then
      -- Completed but no recognized conclusion — treat as passed
      { checks with pass := checks.pass + 1 }
    else
      -- Unknown state — treat as pending
      { checks with pending := checks.pending + 1 }

/-- parseChecks mirrors `parseChecks` (`src/lib/github.ts` lines 57-94):
fold the raw rollup records into a fresh tally. -/
def parseChecks (statusCheckRollup : List CheckRecord) : CheckStatus :=
  statusCheckRollup.foldl parseChecksStep ⟨0, 0, 0, 0⟩

/-- ThreadRec models one review-thread node `{ isResolved }`. -/
structure ThreadRec where
  isResolved : Bool
deriving DecidableEq

/-- countUnresolvedThreads mirrors `countUnresolvedThreads`
(`src/lib/github.ts` lines 96-98). -/
def countUnresolvedThreads (threads : List ThreadRec) : Nat :=
  (threads.filter (fun t => !t.isResolved)).length

/-- stateIcon is the state-marker ternary at the head of `formatStatus`
(`src/lib/github.ts` line 150). -/
def stateIcon (state : String) : String :=
  if state = "MERGED" then "🟣" else if state = "CLOSED" then "🔴" else "🟢"

/-- joinDot models `Array.prototype.join(" · ")` on the parts list. -/
def joinDot : List String → String
  | [] => ""
  | [s] => s
  | s :: rest => s ++ " · " ++ joinDot rest

/-- formatStatus mirrors `formatStatus` (`src/lib/github.ts` lines 149-169):
the parts array is built by successive pushes and joined with `" · "`. -/
def formatStatus (pr : PrInfo) : String :=
  let parts : List String := [stateIcon pr.state ++ " PR #" ++ toString pr.number]
  let parts :=
    if pr.checks.total > 0 then
      parts ++ [if pr.checks.fail > 0 then
          "❌ " ++ toString pr.checks.fail ++ "/" ++ toString pr.checks.total ++ " checks failed"
        else if pr.checks.pending > 0 then
          "⏳ " ++ toString pr.checks.pending ++ "/" ++ toString pr.checks.total ++ " checks pending"
        else
          "✅ " ++ toString pr.checks.total ++ " checks passed"]
    else parts
  let parts :=
    if pr.unresolvedThreads > 0 then
      parts ++ ["💬 " ++ toString pr.unresolvedThreads ++ " unresolved"]
    else parts
  let parts := parts ++ [pr.url]
  joinDot parts

/-- PrUrlMatch mirrors the result object of `parsePrUrl`:
`{ url: match[0], repo: match[1], number: parseInt(match[2], 10) }`. -/
structure PrUrlMatch where
  url : String
  repo : String
  number : Nat
deriving DecidableEq

/-- stripLit consumes a literal character sequence, returning the rest of
the input, or `none` when the input does not start with the literal. -/
def stripLit : List Char → List Char → Option (List Char)
  | [], cs => some cs
  | _ :: _, [] => none
  | p :: ps, c :: cs => if c = p then stripLit ps cs else none

/-- digitsToNat models `parseInt(digits, 10)` on a nonempty digit run. -/
def digitsToNat (digits : List Char) : Nat :=
  digits.foldl (fun n c => n * 10 + (c.toNat - '0'.toNat)) 0

/-- matchPrUrlAt attempts the regex
`https:\/\/github\.com\/([^/]+\/[^/]+)\/pull\/(\d+)` — written in the
source as `PR_URL_RE` — at one fixed start position.  Each greedy `[^/]+`
(and the final `\d+`) is followed in the pattern by a literal `/` or by the
pattern end, so no shorter run than the maximal one can ever succeed:
matching at a fixed position is deterministic and backtracking-free, and
the maximal-run translation below is exact. -/
def matchPrUrlAt (cs : List Char) : Option PrUrlMatch :=
  match stripLit "https://github.com/".data cs with
  | none => none
  | some rest₁ =>
    let owner := rest₁.takeWhile (fun c => c ≠ '/')
    let rest₂ := rest₁.dropWhile (fun c => c ≠ '/')
    if owner = [] then none
    else
      match rest₂ with
      | [] => none
      | c :: rest₃ =>
        if c = '/' then
          let repoName := rest₃.takeWhile (fun c => c ≠ '/')
          let rest₄ := rest₃.dropWhile (fun c => c ≠ '/')
          if repoName = [] then none
          else
            match stripLit "/pull/".data rest₄ with
            | none => none
            | some rest₅ =>
              let digits := rest₅.takeWhile Char.isDigit
              if digits = [] then none
              else
                some { url := String.mk ("https://github.com/".data ++ owner ++ '/' :: repoName
                         ++ "/pull/".data ++ digits),
                       repo := String.mk (owner ++ '/' :: repoName),
                       number := digitsToNat digits }
        else none

/-- findPrUrl scans candidate start positions left to right, as the regex
engine does, returning the leftmost match. -/
def findPrUrl : List Char → Option PrUrlMatch
  | [] => none
  | c :: cs =>
    match matchPrUrlAt (c :: cs) with
    | some m => some m
    | none => findPrUrl cs

/-- parsePrUrl mirrors `parsePrUrl` of the extension module (lines 107-113):
`text.match(PR_URL_RE)` mapped to the `\x7burl, repo, number\x7d` record. -/
def parsePrUrl (text : String) : Option PrUrlMatch :=
  findPrUrl text.data

/-- RawPr models the object produced by `JSON.parse` on a successful
`gh pr view --json number,title,url,state,statusCheckRollup` call.
`number` and `url` are the only fields the code checks for presence;
`statusCheckRollup` is `none` when the field is missing or not an array
(the `Array.isArray` test on line 112). -/
structure RawPr where
  number : Option Nat
  title : String
  url : Option String
  state : String
  statusCheckRollup : Option (List CheckRecord)
deriving DecidableEq

/-- PrViewResp models the observable outcomes of the primary
`gh pr view` call in `getPrForBranch` (`src/lib/github.ts` lines 102-110):
the process may throw (caught by the outer handler), print nothing
(trimmed-empty output, line 108), print something `JSON.parse` rejects
(also caught by the outer handler), or yield a parsed object. -/
inductive PrViewResp where
  | error
  | empty
  | malformed
  | ok (pr : RawPr)
deriving DecidableEq

/-- ThreadsResp models the observable outcomes of the secondary GraphQL
review-thread query (lines 116-133): the process or `JSON.parse` may throw
(caught by the inner handler), or yield data whose
`data?.repository?.pullRequest?.reviewThreads?.nodes` path is either a
thread array (`some nodes`) or missing / not an array (`none`). -/
inductive ThreadsResp where
  | error
  | ok (nodes : Option (List ThreadRec))
deriving DecidableEq

/-- getPrForBranch mirrors `getPrForBranch` (`src/lib/github.ts` lines
100-147) over the response model: the backend calls are supplied as the
`primary` response and, per repository coordinates, the `threads`
response.  Every failure path of the source returns `undefined` (here
`none`) or degrades the unresolved count to 0; nothing escapes. -/
def getPrForBranch (primary : PrViewResp) (repo : Option RepoInfo)
    (threads : RepoInfo → ThreadsResp) : Option PrInfo :=
  match primary with
  | .error => none
  | .empty => none
  | .malformed => none
  | .ok pr =>
    match pr.number, pr.url with
    | some n, some u =>
      -- `if (!pr.number || !pr.url) return undefined`: 0 and "" are falsy
      if n = 0 ∨ u = "" then none
      else
        let checks := match pr.statusCheckRollup with
          | some rollup => parseChecks rollup
          | none => ⟨0, 0, 0, 0⟩
        let unresolvedThreads := match repo with
          | some r =>
            match threads r with
            | .error => 0
            | .ok (some nodes) => countUnresolvedThreads nodes
            | .ok none => 0
          | none => 0
        some ⟨n, pr.title, u, pr.state, checks, unresolvedThreads⟩
    | _, _ => none

/-- PinnedRef models the `pinnedPr` record `\x7b repo, number \x7d`. -/
structure PinnedRef where
  repo : String
  number : Nat
deriving DecidableEq

/-- SelState gathers the mutable closure variables of the extension
module (part_002 lines 246-252) plus the value last written to the
status-bar slot by `ui.setStatus` (the displayed status). -/
structure SelState where
  lastBranch : Option String
  lastPr : Option PrInfo
  cachedRepo : Option RepoInfo
  pinnedPr : Option PinnedRef
  status : Option String
deriving DecidableEq

/-- Env supplies the backend oracles one `update`/`tryPinFromUrl` call
consults: `getBranch(cwd)`, `getRepoInfo(cwd)`, `getPrForBranch(cwd, repo)`
as a function of the repo argument, and `getPrByNumber(repo, number)`. -/
structure Env where
  branch : Option String
  repoInfo : Option RepoInfo
  prForBranch : Option RepoInfo → Option PrInfo
  prByNumber : String → Nat → Option PrInfo

/-- hasActiveBranchPr mirrors `hasActiveBranchPr` (part_002 lines 256-258). -/
def hasActiveBranchPr (st : SelState) : Bool :=
  match st.lastPr with
  | some pr => pr.state = "OPEN"
  | none => false

/-- showStatus mirrors `showStatus` (part_002 lines 260-263): record the
pull request and write its formatted status (or clear the slot). -/
def showStatus (pr : Option PrInfo) (st : SelState) : SelState :=
  { st with lastPr := pr, status := pr.map formatStatus }

/-- update mirrors `update` (part_002 lines 265-308): one poll tick. -/
def update (env : Env) (st : SelState) : SelState :=
  -- If a PR is pinned by URL, use that instead of branch detection
  match st.pinnedPr with
  | some pin =>
    let pr := env.prByNumber pin.repo pin.number
    let st₁ := showStatus pr st
    match pr with
    | none => st₁
    | some _ =>
      let branch := env.branch
      let st₂ :=
        match branch with
        | some b =>
          if b ≠ "HEAD" ∧ some b ≠ st₁.lastBranch then { st₁ with lastBranch := some b } else st₁
        | none => st₁
      match branch with
      | some b =>
        if b ≠ "HEAD" then
          let repo := st₂.cachedRepo.orElse (fun _ => env.repoInfo)
          let st₃ := { st₂ with cachedRepo := repo }
          match env.prForBranch repo with
          | some branchPr =>
            if branchPr.state = "OPEN" then
              showStatus (some branchPr) { st₃ with pinnedPr := none }
            else st₃
          | none => st₃
        else st₂
      | none => st₂
  | none =>
    let branch := env.branch
    let st₁ :=
      if branch ≠ st.lastBranch then { st with lastBranch := branch, lastPr := none } else st
    match branch with
    | none => showStatus none st₁
    | some b =>
      if b = "HEAD" then showStatus none st₁
      else
        let repo := st₁.cachedRepo.orElse (fun _ => env.repoInfo)
        let st₂ := { st₁ with cachedRepo := repo }
        showStatus (env.prForBranch repo) st₂

/-- tryPinFromUrl mirrors `tryPinFromUrl` (part_002 lines 310-327): the
handler run on user input (and on before-agent-start prompt text). -/
def tryPinFromUrl (env : Env) (text : String) (st : SelState) : SelState :=
  match parsePrUrl text with
  | none => st
  | some parsed =>
    -- Don't re-pin the same PR
    if st.pinnedPr = some ⟨parsed.repo, parsed.number⟩ then st
    -- Only pin when the current branch has no active (open) PR
    else if hasActiveBranchPr st then st
    else
      let st₁ := { st with pinnedPr := some ⟨parsed.repo, parsed.number⟩ }
      -- Fetch and show immediately
      showStatus (env.prByNumber parsed.repo parsed.number) st₁

/-- prPinnedW is a concrete pull request used as the pinned-query result
in witness instantiations. -/
def prPinnedW : PrInfo :=
  ⟨42, "p", "https://github.com/owner/repo/pull/42", "OPEN", ⟨0, 0, 0, 0⟩, 0⟩

/-- prOpenW is a concrete open pull request used as the branch-query result
in witness instantiations. -/
def prOpenW : PrInfo :=
  ⟨7, "t", "https://github.com/o/r/pull/7", "OPEN", ⟨1, 1, 0, 0⟩, 0⟩

/-- prFourW is the all-passed four-check pull request of the spec's exact
formatting example. -/
def prFourW : PrInfo :=
  ⟨7, "t", "https://github.com/o/r/pull/7", "OPEN", ⟨4, 4, 0, 0⟩, 0⟩

/-- pinW is a concrete pinned reference. -/
def pinW : PinnedRef := ⟨"owner/repo", 42⟩

/-- stEmptyW is the freshly reset selector state. -/
def stEmptyW : SelState := ⟨none, none, none, none, none⟩

/-- stPinnedW is a selector state with `pinW` pinned. -/
def stPinnedW : SelState := ⟨some "main", none, none, some pinW, some "s"⟩

/-- stActiveW is a selector state whose branch has an open pull request
selected. -/
def stActiveW : SelState := ⟨some "main", some prOpenW, none, none, some "s"⟩

/-- envPinW is an environment whose by-number query finds `prPinnedW` and
whose branch query finds nothing. -/
def envPinW : Env :=
  ⟨some "main", none, fun _ => none, fun _ _ => some prPinnedW⟩

/-- envBranchW is an environment whose by-number query finds `prPinnedW`
and whose branch query finds the open `prOpenW`. -/
def envBranchW : Env :=
  ⟨some "main", none, fun _ => some prOpenW, fun _ _ => some prPinnedW⟩

/-- envNoneW is an environment where every query fails. -/
def envNoneW : Env :=
  ⟨some "main", none, fun _ => none, fun _ _ => none⟩

/-- rawPrW is a concrete parsed primary response. -/
def rawPrW : RawPr :=
  ⟨some 42, "t", some "https://github.com/o/r/pull/42", "OPEN",
    some [⟨"ci", "SUCCESS", "COMPLETED"⟩]⟩

/-- rW is a concrete repository coordinate pair. -/
def rW : RepoInfo := ⟨"o", "r"⟩

/-- thErrW is a secondary query that always throws. -/
def thErrW : RepoInfo → ThreadsResp := fun _ => .error

/-- hasSignal holds for the records `parseChecks` counts: at least one of
the name, conclusion, or status fields is present (nonempty). -/
def hasSignal (c : CheckRecord) : Bool :=
  c.name ≠ "" ∨ c.conclusion ≠ "" ∨ c.status ≠ ""

/-- statusFallback restates, from the spec's words in §4.2, the
status-only classification a single counted record receives when its
conclusion matches neither vocabulary. -/
def statusFallback (status : String) : CheckStatus :=
  if upper status = "IN_PROGRESS" ∨ upper status = "QUEUED" ∨
      upper status = "PENDING" ∨ upper status = "WAITING" then ⟨1, 0, 0, 1⟩
  else if upper status = "COMPLETED" then ⟨1, 1, 0, 0⟩
  else ⟨1, 0, 0, 1⟩

theorem upper_eq_empty_iff (s : String) : upper s = "" ↔ s = "" := by
  constructor
  · intro h
    have hd : s.data.map Char.toUpper = ([] : List Char) := congrArg String.data h
    exact String.ext (List.map_eq_nil_iff.mp hd)
  · intro h
    subst h
    rfl

theorem parseChecksStep_ghost (acc : CheckStatus) (c : CheckRecord)
    (h : hasSignal c = false) : parseChecksStep acc c = acc := by
  simp only [hasSignal, decide_eq_false_iff_not, not_or, not_not] at h
  obtain ⟨h₁, h₂, h₃⟩ := h
  unfold parseChecksStep
  rw [if_pos ⟨h₁, (upper_eq_empty_iff _).mpr h₂, (upper_eq_empty_iff _).mpr h₃⟩]

theorem parseChecksStep_signal (acc : CheckStatus) (c : CheckRecord)
    (h : hasSignal c = true) :
    (parseChecksStep acc c).total = acc.total + 1 ∧
    (parseChecksStep acc c).pass + (parseChecksStep acc c).fail +
        (parseChecksStep acc c).pending = acc.pass + acc.fail + acc.pending + 1 := by
  simp only [hasSignal, decide_eq_true_eq] at h
  have hg : ¬(c.name = "" ∧ upper c.conclusion = "" ∧ upper c.status = "") := by
    rintro ⟨h₁, h₂, h₃⟩
    rw [upper_eq_empty_iff] at h₂ h₃
    rcases h with h | h | h <;> exact h (by assumption)
  unfold parseChecksStep
  rw [if_neg hg]
  repeat' split
  all_goals exact ⟨rfl, by dsimp only; omega⟩

theorem parseChecks_foldl_invariant (l : List CheckRecord) (acc : CheckStatus) :
    (l.foldl parseChecksStep acc).total = acc.total + l.countP hasSignal ∧
    (l.foldl parseChecksStep acc).pass + (l.foldl parseChecksStep acc).fail +
        (l.foldl parseChecksStep acc).pending
      = acc.pass + acc.fail + acc.pending + l.countP hasSignal := by
  induction l generalizing acc with
  | nil => simp
  | cons c rest ih =>
    by_cases h : hasSignal c = true
    · have hstep := parseChecksStep_signal acc c h
      have := ih (parseChecksStep acc c)
      simp only [List.foldl_cons, List.countP_cons, h, if_pos] at *
      omega
    · have hb : hasSignal c = false := by revert h; cases hasSignal c <;> simp
      have hstep := parseChecksStep_ghost acc c hb
      have := ih (parseChecksStep acc c)
      simp only [List.foldl_cons, List.countP_cons, hb, hstep] at *
      simpa using this

/-- C3: the tally returned by `parseChecks` satisfies
`pass + fail + pending = total`, and `total` counts exactly the records
that carry at least one of a name, a conclusion, or a status — ghost
records never increment `total`. -/
theorem parseChecks_tally_invariant (l : List CheckRecord) :
    (parseChecks l).pass + (parseChecks l).fail + (parseChecks l).pending
        = (parseChecks l).total ∧
    (parseChecks l).total = l.countP hasSignal := by
  have h := parseChecks_foldl_invariant l ⟨0, 0, 0, 0⟩
  simp only at h
  unfold parseChecks
  omega

/-- C6: a counted record whose conclusion matches the pass or fail
vocabulary (case-insensitively) is classified by the conclusion alone,
whatever its status; only a record matching neither vocabulary is
classified by its status, via the status-only fallback table. -/
theorem parseChecks_conclusion_priority (c : CheckRecord) :
    (upper c.conclusion = "SUCCESS" ∨ upper c.conclusion = "NEUTRAL" ∨
        upper c.conclusion = "SKIPPED" →
      parseChecks [c] = ⟨1, 1, 0, 0⟩) ∧
    (upper c.conclusion = "FAILURE" ∨ upper c.conclusion = "TIMED_OUT" ∨
        upper c.conclusion = "CANCELLED" ∨ upper c.conclusion = "ACTION_REQUIRED" →
      parseChecks [c] = ⟨1, 0, 1, 0⟩) ∧
    (hasSignal c = true →
      ¬(upper c.conclusion = "SUCCESS" ∨ upper c.conclusion = "NEUTRAL" ∨
          upper c.conclusion = "SKIPPED") →
      ¬(upper c.conclusion = "FAILURE" ∨ upper c.conclusion = "TIMED_OUT" ∨
          upper c.conclusion = "CANCELLED" ∨ upper c.conclusion = "ACTION_REQUIRED") →
      parseChecks [c] = statusFallback c.status) := by
  have hsingle : parseChecks [c] = parseChecksStep ⟨0, 0, 0, 0⟩ c := rfl
  refine ⟨?_, ?_, ?_⟩
  · intro hpass
    have hg : ¬(c.name = "" ∧ upper c.conclusion = "" ∧ upper c.status = "") := by
      rintro ⟨-, h₂, -⟩
      rcases hpass with h | h | h <;> rw [h₂] at h <;> simp at h
    rw [hsingle]
    unfold parseChecksStep
    rw [if_neg hg, if_pos hpass]
  · intro hfail
    have hg : ¬(c.name = "" ∧ upper c.conclusion = "" ∧ upper c.status = "") := by
      rintro ⟨-, h₂, -⟩
      rcases hfail with h | h | h | h <;> rw [h₂] at h <;> simp at h
    have hnp : ¬(upper c.conclusion = "SUCCESS" ∨ upper c.conclusion = "NEUTRAL" ∨
        upper c.conclusion = "SKIPPED") := by
      rintro (h | h | h) <;> rcases hfail with h' | h' | h' | h' <;>
        rw [h] at h' <;> simp at h'
    rw [hsingle]
    unfold parseChecksStep
    rw [if_neg hg, if_neg hnp, if_pos hfail]
  · intro hs hnp hnf
    have hg : ¬(c.name = "" ∧ upper c.conclusion = "" ∧ upper c.status = "") := by
      rintro ⟨h₁, h₂, h₃⟩
      rw [upper_eq_empty_iff] at h₂ h₃
      simp only [hasSignal, decide_eq_true_eq] at hs
      rcases hs with h | h | h <;> exact h (by assumption)
    rw [hsingle]
    unfold parseChecksStep statusFallback
    rw [if_neg hg, if_neg hnp, if_neg hnf]

theorem formatStatus_flat (pr : PrInfo) :
    formatStatus pr =
      stateIcon pr.state ++ " PR #" ++ toString pr.number ++
        (if pr.checks.total > 0 then
          " · " ++
            (if pr.checks.fail > 0 then
              "❌ " ++ toString pr.checks.fail ++ "/" ++ toString pr.checks.total ++
                " checks failed"
            else if pr.checks.pending > 0 then
              "⏳ " ++ toString pr.checks.pending ++ "/" ++ toString pr.checks.total ++
                " checks pending"
            else "✅ " ++ toString pr.checks.total ++ " checks passed")
        else "") ++
        (if pr.unresolvedThreads > 0 then
          " · 💬 " ++ toString pr.unresolvedThreads ++ " unresolved"
        else "") ++
        (" · " ++ pr.url) := by
  unfold formatStatus
  have hm : ∀ x : String, " · " ++ ("💬 " ++ x) = " · 💬 " ++ x := fun x => by
    rw [← String.append_assoc]
    exact congrArg (fun s => s ++ x) (by decide)
  by_cases h₁ : pr.checks.total > 0 <;> by_cases h₂ : pr.unresolvedThreads > 0 <;>
    simp only [h₁, h₂, if_true, if_false, List.cons_append, List.nil_append,
      List.singleton_append, joinDot, String.append_assoc, String.append_empty, hm]

/-- C5: `formatStatus` renders, joined by `" · "`, the state marker and PR
number first, then (only when `total > 0`) exactly one checks segment chosen
by strict priority fail > pending > pass, then an unresolved segment exactly
when `unresolvedThreads > 0`, then the URL last; in particular a fully
passed 4-check tally with no unresolved threads yields exactly
`"<marker> PR #<n> · ✅ 4 checks passed · <url>"`. -/
theorem formatStatus_segment_order (pr : PrInfo) :
    formatStatus pr =
      stateIcon pr.state ++ " PR #" ++ toString pr.number ++
        (if pr.checks.total > 0 then
          " · " ++
            (if pr.checks.fail > 0 then
              "❌ " ++ toString pr.checks.fail ++ "/" ++ toString pr.checks.total ++
                " checks failed"
            else if pr.checks.pending > 0 then
              "⏳ " ++ toString pr.checks.pending ++ "/" ++ toString pr.checks.total ++
                " checks pending"
            else "✅ " ++ toString pr.checks.total ++ " checks passed")
        else "") ++
        (if pr.unresolvedThreads > 0 then
          " · 💬 " ++ toString pr.unresolvedThreads ++ " unresolved"
        else "") ++
        (" · " ++ pr.url) ∧
    (pr.checks = ⟨4, 4, 0, 0⟩ → pr.unresolvedThreads = 0 →
      formatStatus pr =
        stateIcon pr.state ++ " PR #" ++ toString pr.number ++ " · ✅ 4 checks passed" ++
          (" · " ++ pr.url)) := by
  refine ⟨formatStatus_flat pr, fun hc hu => ?_⟩
  rw [formatStatus_flat pr, hc, hu]
  simp only [if_neg (lt_irrefl 0), if_pos (by decide : (4 : Nat) > 0)]
  rw [show (" · " ++ (("✅ " ++ toString (4 : Nat)) ++ " checks passed"))
      = " · ✅ 4 checks passed" from by decide]
  rw [String.append_empty]

/-- C9: the state marker is `🟣` exactly for the state string `"MERGED"` and
`🔴` exactly for `"CLOSED"`; every other state string — `"DRAFT"`, `""`,
lowercase `"merged"`, anything — renders the open marker `🟢`, and
`formatStatus` emits that marker first. -/
theorem formatStatus_state_marker (pr : PrInfo) :
    (∃ rest, formatStatus pr = stateIcon pr.state ++ rest) ∧
    (stateIcon pr.state = "🟣" ↔ pr.state = "MERGED") ∧
    (stateIcon pr.state = "🔴" ↔ pr.state = "CLOSED") ∧
    (pr.state ≠ "MERGED" → pr.state ≠ "CLOSED" → stateIcon pr.state = "🟢") := by
  have flat : ∀ a b c d e f : String,
      a ++ b ++ c ++ d ++ e ++ f = a ++ (b ++ (c ++ (d ++ (e ++ f)))) := by
    intro a b c d e f
    simp [String.append_assoc]
  refine ⟨⟨_, (formatStatus_flat pr).trans (flat _ _ _ _ _ _)⟩, ?_, ?_, ?_⟩
  · unfold stateIcon
    split_ifs with h₁ h₂ <;> simp_all
  · unfold stateIcon
    split_ifs with h₁ h₂ <;> simp_all
  · intro h₁ h₂
    unfold stateIcon
    rw [if_neg h₁, if_neg h₂]

example : parsePrUrl "https://github.com/owner/repo/pull/42" =
    some ⟨"https://github.com/owner/repo/pull/42", "owner/repo", 42⟩ := by decide

example : parsePrUrl "check https://github.com/a/b/pull/1 please" =
    some ⟨"https://github.com/a/b/pull/1", "a/b", 1⟩ := by decide

example : parsePrUrl "https://github.com/owner/repo/issues/42" = none := by decide

example : parsePrUrl "just some text" = none := by decide

example : parseChecks [⟨"", "success", "completed"⟩, ⟨"", "failure", "completed"⟩] =
    ⟨2, 1, 1, 0⟩ := by decide

example : formatStatus ⟨7, "Big PR", "https://github.com/o/r/pull/7", "OPEN", ⟨10, 8, 2, 0⟩, 5⟩ =
    "🟢 PR #7 · ❌ 2/10 checks failed · 💬 5 unresolved · https://github.com/o/r/pull/7" := by
  decide

example : formatStatus ⟨42, "Test PR", "https://github.com/owner/repo/pull/42", "OPEN",
    ⟨0, 0, 0, 0⟩, 0⟩ = "🟢 PR #42 · https://github.com/owner/repo/pull/42" := by decide

theorem update_pinned_query_none_eq (env : Env) (st : SelState) (pin : PinnedRef)
    (hpin : st.pinnedPr = some pin)
    (hq : env.prByNumber pin.repo pin.number = none) :
    update env st = { st with lastPr := none, status := none } := by
  unfold update
  rw [hpin]
  dsimp only
  rw [hq]
  simp [showStatus]
  exact hpin

/-- C1: a user-input text with a parseable pull-request URL, whose
repo+number differs from the current pin, arriving while the branch has no
active OPEN pull request selected, sets the pin to the parsed repo+number
and immediately queries and displays that pull request's formatted
status. -/
theorem tryPinFromUrl_pins_and_displays (env : Env) (text : String) (st : SelState)
    (m : PrUrlMatch) (hp : parsePrUrl text = some m)
    (hpin : st.pinnedPr ≠ some ⟨m.repo, m.number⟩)
    (ha : hasActiveBranchPr st = false) :
    tryPinFromUrl env text st =
      showStatus (env.prByNumber m.repo m.number)
        { st with pinnedPr := some ⟨m.repo, m.number⟩ } ∧
    (tryPinFromUrl env text st).pinnedPr = some ⟨m.repo, m.number⟩ ∧
    (tryPinFromUrl env text st).status = (env.prByNumber m.repo m.number).map formatStatus ∧
    (tryPinFromUrl env text st).lastPr = env.prByNumber m.repo m.number := by
  have h1 : tryPinFromUrl env text st =
      showStatus (env.prByNumber m.repo m.number)
        { st with pinnedPr := some ⟨m.repo, m.number⟩ } := by
    unfold tryPinFromUrl
    rw [hp]
    dsimp only
    rw [if_neg hpin, if_neg (by simp [ha])]
  refine ⟨h1, ?_, ?_, ?_⟩ <;> rw [h1] <;> simp [showStatus]

/-- Witness for C1 at a concrete environment, state, and input text. -/
theorem tryPinFromUrl_pins_and_displays_witness :
    parsePrUrl "see: https://github.com/owner/repo/pull/42" =
      some ⟨"https://github.com/owner/repo/pull/42", "owner/repo", 42⟩ ∧
    stEmptyW.pinnedPr ≠ some ⟨"owner/repo", 42⟩ ∧
    hasActiveBranchPr stEmptyW = false ∧
    (tryPinFromUrl envPinW "see: https://github.com/owner/repo/pull/42" stEmptyW).pinnedPr
      = some ⟨"owner/repo", 42⟩ ∧
    (tryPinFromUrl envPinW "see: https://github.com/owner/repo/pull/42" stEmptyW).status
      = some (formatStatus prPinnedW) := by
  have h := tryPinFromUrl_pins_and_displays envPinW
    "see: https://github.com/owner/repo/pull/42" stEmptyW
    ⟨"https://github.com/owner/repo/pull/42", "owner/repo", 42⟩
    (by decide) (by decide) (by decide)
  exact ⟨by decide, by decide, by decide, h.2.1, h.2.2.1.trans rfl⟩

/-- C4: a user-input text with a parseable pull-request URL arriving while
the currently selected pull request has state OPEN leaves the selector
state (pin, last pull request, displayed status) entirely unchanged. -/
theorem tryPinFromUrl_ignored_when_active (env : Env) (text : String) (st : SelState)
    (m : PrUrlMatch) (hp : parsePrUrl text = some m)
    (ha : hasActiveBranchPr st = true) :
    tryPinFromUrl env text st = st := by
  unfold tryPinFromUrl
  rw [hp]
  dsimp only
  split <;> rfl

/-- Witness for C4 at a concrete environment, state, and input text. -/
theorem tryPinFromUrl_ignored_when_active_witness :
    parsePrUrl "see: https://github.com/owner/repo/pull/42" =
      some ⟨"https://github.com/owner/repo/pull/42", "owner/repo", 42⟩ ∧
    hasActiveBranchPr stActiveW = true ∧
    tryPinFromUrl envPinW "see: https://github.com/owner/repo/pull/42" stActiveW = stActiveW := by
  refine ⟨by decide, by decide, ?_⟩
  exact tryPinFromUrl_ignored_when_active envPinW _ stActiveW
    ⟨"https://github.com/owner/repo/pull/42", "owner/repo", 42⟩ (by decide) (by decide)

/-- C2: on a poll tick while pinned, when the pinned query resolves and the
current branch (present, not the detached-head sentinel) has its own OPEN
pull request, the pin is cleared and the branch's pull request is displayed
instead of the pinned one. -/
theorem update_pin_yields_to_open_branch_pr (env : Env) (st : SelState) (pin : PinnedRef)
    (pr bpr : PrInfo) (b : String)
    (hpin : st.pinnedPr = some pin)
    (hq : env.prByNumber pin.repo pin.number = some pr)
    (hb : env.branch = some b) (hbh : b ≠ "HEAD")
    (hbr : env.prForBranch (st.cachedRepo.orElse (fun _ => env.repoInfo)) = some bpr)
    (hopen : bpr.state = "OPEN") :
    (update env st).pinnedPr = none ∧
    (update env st).status = some (formatStatus bpr) ∧
    (update env st).lastPr = some bpr := by
  unfold update
  rw [hpin]
  dsimp only
  rw [hq, hb]
  simp only [showStatus]
  rw [if_pos hbh]
  simp only [apply_ite SelState.cachedRepo]
  simp only [ite_self]
  rw [hbr]
  dsimp only
  rw [if_pos hopen]
  exact ⟨rfl, rfl, rfl⟩

/-- Witness for C2 at a concrete environment and state. -/
theorem update_pin_yields_to_open_branch_pr_witness :
    stPinnedW.pinnedPr = some pinW ∧
    envBranchW.prByNumber pinW.repo pinW.number = some prPinnedW ∧
    envBranchW.branch = some "main" ∧ ("main" : String) ≠ "HEAD" ∧
    envBranchW.prForBranch (stPinnedW.cachedRepo.orElse (fun _ => envBranchW.repoInfo))
      = some prOpenW ∧
    prOpenW.state = "OPEN" ∧
    (update envBranchW stPinnedW).pinnedPr = none ∧
    (update envBranchW stPinnedW).status = some (formatStatus prOpenW) := by
  have h := update_pin_yields_to_open_branch_pr envBranchW stPinnedW pinW prPinnedW prOpenW
    "main" (by decide) rfl rfl (by decide) rfl (by decide)
  exact ⟨by decide, rfl, rfl, by decide, rfl, by decide, h.1, h.2.1⟩

/-- C10: on a poll tick while pinned, when the pinned query returns absent,
the displayed status and the last pull request are cleared but the pin is
kept, so the next tick behaves identically (it re-queries the same pinned
pull request instead of falling back to branch selection). -/
theorem update_pin_persists_on_absent (env : Env) (st : SelState) (pin : PinnedRef)
    (hpin : st.pinnedPr = some pin)
    (hq : env.prByNumber pin.repo pin.number = none) :
    update env st = { st with lastPr := none, status := none } ∧
    (update env st).pinnedPr = some pin ∧
    update env (update env st) = update env st := by
  have h1 := update_pinned_query_none_eq env st pin hpin hq
  have h2 := update_pinned_query_none_eq env { st with lastPr := none, status := none } pin
    hpin hq
  refine ⟨h1, by rw [h1]; exact hpin, ?_⟩
  rw [h1, h2]

/-- Witness for C10 at a concrete environment and state. -/
theorem update_pin_persists_on_absent_witness :
    stPinnedW.pinnedPr = some pinW ∧
    envNoneW.prByNumber pinW.repo pinW.number = none ∧
    (update envNoneW stPinnedW).status = none ∧
    (update envNoneW stPinnedW).lastPr = none ∧
    (update envNoneW stPinnedW).pinnedPr = some pinW := by
  have h := update_pin_persists_on_absent envNoneW stPinnedW pinW (by decide) rfl
  exact ⟨by decide, rfl, by rw [h.1], by rw [h.1], h.2.1⟩

/-- C8: `getPrForBranch` is total over the response model — a thrown
backend call, empty output, unparseable output, or a missing number or url
field yields absent — and a primary success paired with a failed or
malformed secondary review-thread query still yields the pull request with
an unresolved count of 0 rather than absent. -/
theorem getPrForBranch_error_handling :
    (∀ repo th, getPrForBranch .error repo th = none) ∧
    (∀ repo th, getPrForBranch .empty repo th = none) ∧
    (∀ repo th, getPrForBranch .malformed repo th = none) ∧
    (∀ pr repo th, pr.number = none → getPrForBranch (.ok pr) repo th = none) ∧
    (∀ pr repo th, pr.url = none → getPrForBranch (.ok pr) repo th = none) ∧
    (∀ pr r th n u, pr.number = some n → n ≠ 0 → pr.url = some u → u ≠ "" →
      (th r = .error ∨ th r = .ok none) →
      ∃ info, getPrForBranch (.ok pr) (some r) th = some info ∧
        info.unresolvedThreads = 0 ∧ info.number = n ∧ info.url = u) := by
  refine ⟨fun _ _ => rfl, fun _ _ => rfl, fun _ _ => rfl, ?_, ?_, ?_⟩
  · intro pr repo th h
    unfold getPrForBranch
    dsimp only
    rw [h]
  · intro pr repo th h
    unfold getPrForBranch
    dsimp only
    rw [h]
    cases pr.number <;> rfl
  · intro pr r th n u hn hn0 hu hu0 hth
    unfold getPrForBranch
    dsimp only
    rw [hn, hu]
    dsimp only
    rw [if_neg (by simp [hn0, hu0])]
    rcases hth with h | h <;> rw [h] <;> exact ⟨_, rfl, rfl, rfl, rfl⟩

/-- Witness for C8: a concrete primary success whose secondary query
throws still yields the pull request, with zero unresolved threads. -/
theorem getPrForBranch_error_handling_witness :
    rawPrW.number = some 42 ∧ (42 : Nat) ≠ 0 ∧
    rawPrW.url = some "https://github.com/o/r/pull/42" ∧
    ("https://github.com/o/r/pull/42" : String) ≠ "" ∧
    (thErrW rW = .error ∨ thErrW rW = .ok none) ∧
    ∃ info, getPrForBranch (.ok rawPrW) (some rW) thErrW = some info ∧
      info.unresolvedThreads = 0 ∧ info.number = 42 ∧
      info.url = "https://github.com/o/r/pull/42" := by
  refine ⟨rfl, by decide, rfl, by decide, Or.inl rfl, ?_⟩
  exact getPrForBranch_error_handling.2.2.2.2.2 rawPrW rW thErrW 42
    "https://github.com/o/r/pull/42" rfl (by decide) rfl (by decide) (Or.inl rfl)

theorem stripLit_self_append (lit rest : List Char) :
    stripLit lit (lit ++ rest) = some rest := by
  induction lit with
  | nil => rfl
  | cons c cs ih => simp [stripLit, ih]

theorem matchPrUrlAt_ne_h (c : Char) (cs : List Char) (h : c ≠ 'h') :
    matchPrUrlAt (c :: cs) = none := by
  unfold matchPrUrlAt
  rw [show "https://github.com/".data = 'h' :: "ttps://github.com/".data from rfl]
  simp [stripLit, h]

theorem findPrUrl_append_none (l r : List Char) (hl : ∀ c ∈ l, c ≠ 'h') :
    findPrUrl (l ++ r) = findPrUrl r := by
  induction l with
  | nil => rfl
  | cons c cs ih =>
    have hc : c ≠ 'h' := hl c (by simp)
    have hcs : ∀ x ∈ cs, x ≠ 'h' := fun x hx => hl x (by simp [hx])
    simp only [List.cons_append, findPrUrl, List.append_eq]
    rw [matchPrUrlAt_ne_h c (cs ++ r) hc]
    exact ih hcs

theorem takeWhile_append_eq (p : Char → Bool) (l r : List Char)
    (hl : ∀ c ∈ l, p c = true) (hr : ∀ c ∈ r.take 1, p c = false) :
    (l ++ r).takeWhile p = l ∧ (l ++ r).dropWhile p = r := by
  induction l with
  | nil =>
    cases r with
    | nil => exact ⟨rfl, rfl⟩
    | cons c cs =>
      have hc : p c = false := hr c (by simp)
      simp [List.takeWhile_cons, List.dropWhile_cons, hc]
  | cons c cs ih =>
    have hc : p c = true := hl c (by simp)
    have ih' := ih (fun x hx => hl x (by simp [hx]))
    simp [List.takeWhile_cons, List.dropWhile_cons, hc, ih'.1, ih'.2]

theorem matchPrUrlAt_url42 (rest : List Char)
    (h : ∀ c ∈ rest.take 1, c.isDigit = false) :
    matchPrUrlAt ("https://github.com/owner/repo/pull/42".data ++ rest) =
      some ⟨"https://github.com/owner/repo/pull/42", "owner/repo", 42⟩ := by
  unfold matchPrUrlAt
  rw [show ("https://github.com/owner/repo/pull/42".data ++ rest)
      = "https://github.com/".data ++ ("owner/repo/pull/42".data ++ rest) from rfl]
  rw [stripLit_self_append]
  dsimp only
  rw [show ("owner/repo/pull/42".data ++ rest)
      = "owner".data ++ ('/' :: ("repo/pull/42".data ++ rest)) from rfl]
  have hslash : ∀ (t : List Char) (c : Char), c ∈ List.take 1 ('/' :: t) →
      (fun c => decide (c ≠ '/')) c = false := by
    intro t c hc
    simp at hc
    simp [hc]
  have h₁ := takeWhile_append_eq (fun c => c ≠ '/') "owner".data
    ('/' :: ("repo/pull/42".data ++ rest)) (by decide) (hslash _)
  rw [h₁.1, h₁.2]
  rw [if_neg (by decide : ¬("owner".data = []))]
  dsimp only
  rw [if_pos (show ('/' : Char) = '/' from rfl)]
  rw [show ("repo/pull/42".data ++ rest)
      = "repo".data ++ ('/' :: ("pull/42".data ++ rest)) from rfl]
  have h₂ := takeWhile_append_eq (fun c => c ≠ '/') "repo".data
    ('/' :: ("pull/42".data ++ rest)) (by decide) (hslash _)
  rw [h₂.1, h₂.2]
  rw [if_neg (by decide : ¬("repo".data = []))]
  rw [show ('/' :: ("pull/42".data ++ rest)) = "/pull/".data ++ ("42".data ++ rest) from rfl]
  rw [stripLit_self_append]
  dsimp only
  have h₃ := takeWhile_append_eq Char.isDigit "42".data rest (by decide) h
  rw [h₃.1]
  rw [if_neg (by decide : ¬("42".data = []))]
  decide

/-- C7 (amended): the parser extracts `\x7brepo: "owner/repo", number: 42\x7d`
from any text `pre ++ "https://github.com/owner/repo/pull/42" ++ post`
whose prefix contains no letter `h` (so no URL candidate starts in or
spans the prefix) and whose suffix does not begin with a digit (which
would extend the number); a text that is only an issues URL yields no
match. -/
theorem parsePrUrl_extraction (pre post : String)
    (h₁ : ∀ c ∈ pre.data, c ≠ 'h')
    (h₂ : ∀ c ∈ post.data.take 1, c.isDigit = false) :
    parsePrUrl (pre ++ "https://github.com/owner/repo/pull/42" ++ post) =
      some ⟨"https://github.com/owner/repo/pull/42", "owner/repo", 42⟩ ∧
    parsePrUrl "https://github.com/owner/repo/issues/42" = none := by
  refine ⟨?_, by decide⟩
  unfold parsePrUrl
  rw [String.data_append, String.data_append, List.append_assoc]
  rw [findPrUrl_append_none pre.data
    ("https://github.com/owner/repo/pull/42".data ++ post.data) h₁]
  rw [show ("https://github.com/owner/repo/pull/42".data ++ post.data)
      = 'h' :: ("ttps://github.com/owner/repo/pull/42".data ++ post.data) from rfl]
  simp only [findPrUrl]
  rw [show ('h' :: ("ttps://github.com/owner/repo/pull/42".data ++ post.data))
      = "https://github.com/owner/repo/pull/42".data ++ post.data from rfl]
  rw [matchPrUrlAt_url42 post.data h₂]

/-- Witness for C7 (amended) at a concrete prose embedding. -/
theorem parsePrUrl_extraction_witness :
    (∀ c ∈ ("see: " : String).data, c ≠ 'h') ∧
    (∀ c ∈ (" ok" : String).data.take 1, c.isDigit = false) ∧
    parsePrUrl ("see: " ++ "https://github.com/owner/repo/pull/42" ++ " ok") =
      some ⟨"https://github.com/owner/repo/pull/42", "owner/repo", 42⟩ := by
  refine ⟨by decide, by decide, ?_⟩
  exact (parsePrUrl_extraction "see: " " ok" (by decide) (by decide)).1

/-- Counterexample for C7 as frozen: the text
`"https://github.com/owner/repo/pull/421"` contains
`"https://github.com/owner/repo/pull/42"` as a substring, yet the parser
maps it to repo `"owner/repo"` with number 421, not 42 — the greedy digit
run does not stop at the contained URL's boundary. -/
theorem parsePrUrl_contains_not_sufficient :
    ("https://github.com/owner/repo/pull/421"
      = "" ++ "https://github.com/owner/repo/pull/42" ++ "1") ∧
    (parsePrUrl "https://github.com/owner/repo/pull/421").map (fun m => (m.repo, m.number))
      = some ("owner/repo", 421) ∧
    (parsePrUrl "https://github.com/owner/repo/pull/421").map (fun m => (m.repo, m.number))
      ≠ some ("owner/repo", 42) := by
  exact ⟨by decide, by decide, by decide⟩

/-- Witness for C5 at the spec's concrete formatting example. -/
theorem formatStatus_segment_order_witness :
    prFourW.checks = ⟨4, 4, 0, 0⟩ ∧ prFourW.unresolvedThreads = 0 ∧
    formatStatus prFourW = "🟢 PR #7 · ✅ 4 checks passed · https://github.com/o/r/pull/7" := by
  refine ⟨rfl, rfl, ?_⟩
  have h := (formatStatus_segment_order prFourW).2 rfl rfl
  rw [h]
  decide

/-- Witness for C6: a lowercase SUCCESS conclusion paired with an
IN_PROGRESS status is classified pass, by the conclusion alone. -/
theorem parseChecks_conclusion_priority_witness :
    (upper "success" = "SUCCESS" ∨ upper "success" = "NEUTRAL" ∨
      upper "success" = "SKIPPED") ∧
    parseChecks [⟨"ci", "success", "IN_PROGRESS"⟩] = ⟨1, 1, 0, 0⟩ := by
  refine ⟨by decide, ?_⟩
  exact (parseChecks_conclusion_priority ⟨"ci", "success", "IN_PROGRESS"⟩).1 (by decide)

/-- Witness for C9 at the unknown state string `"DRAFT"`. -/
theorem formatStatus_state_marker_witness :
    (("DRAFT" : String) ≠ "MERGED") ∧ (("DRAFT" : String) ≠ "CLOSED") ∧
    stateIcon "DRAFT" = "🟢" := by
  refine ⟨by decide, by decide, ?_⟩
  exact (formatStatus_state_marker ⟨1, "t", "u", "DRAFT", ⟨0, 0, 0, 0⟩, 0⟩).2.2.2
    (by decide) (by decide)
